import Mathlib

/-!
Shallow embedding of `muinit` (src/muinit.c), a minimal subprocess supervisor:
it spawns `---`-separated commands, forwards signals, and once a child exits
(or SIGTERM/SIGALRM arrives) drives the remaining descendants through an
escalating termination sequence.  Signal numbers are Linux x86-64 values.
-/

deriving instance DecidableEq for Except

namespace Muinit

/-- Linux signal number of SIGINT. -/
def SIGINT : Int := 2

/-- Linux signal number of SIGKILL. -/
def SIGKILL : Int := 9

/-- Linux signal number of SIGALRM (the internal escalation tick). -/
def SIGALRM : Int := 14

/-- Linux signal number of SIGTERM (the restart-escalation signal). -/
def SIGTERM : Int := 15

/-- Largest valid signal number on Linux (`SIGRTMAX`). -/
def SIGRTMAX : Int := 64

/-- C `isspace` over the characters `strtol` may skip. -/
def isSpaceChar (c : Char) : Bool :=
  c == ' ' || c == '\t' || c == '\n' || c == '\x0b' || c == '\x0c' || c == '\r'

/-- Value of a run of decimal digits, most significant first, as accumulated
by `strtol`. -/
def digitsToNat (l : List Char) : Nat :=
  l.foldl (fun acc c => 10 * acc + (c.toNat - 48)) 0

/-- `strtol(buf, &next, 10)`: skip whitespace, an optional sign, then decimal
digits.  `none` models "no conversion performed" (where C leaves
`next == buf`); otherwise the result is the value and the unconsumed suffix
(`next`). -/
def strtol10 (s : List Char) : Option (Int × List Char) :=
  let s1 := s.dropWhile isSpaceChar
  let signed : Bool × List Char :=
    match s1 with
    | '-' :: r => (true, r)
    | '+' :: r => (false, r)
    | _ => (false, s1)
  let digits := signed.2.takeWhile Char.isDigit
  let rest := signed.2.dropWhile Char.isDigit
  if digits = [] then none
  else if signed.1 then some (-(digitsToNat digits : Int), rest)
  else some ((digitsToNat digits : Int), rest)

/-- The `while (next[0] != '\0')` loop of `read_signals_array`
(src/muinit.c:107-128).  Each iteration parses one number, checks that it is
followed by `,` or the end of the string, checks the signal range, and appends
it to the accumulated list (the C code grows the caller's array with
`realloc`).  `fuel` only bounds the recursion; the wrapper supplies more than
any input can consume. -/
def read_signals_loop : Nat → List Char → List Int → Option (List Int)
  | _, [], acc => some acc
  | 0, _ :: _, _ => none
  | fuel + 1, buf, acc =>
    match strtol10 buf with
    | none => none
    | some (val, next) =>
      match next with
      | [] =>
        if val < 0 ∨ SIGRTMAX < val then none else some (acc ++ [val])
      | c :: r =>
        if c = ',' then
          if val < 0 ∨ SIGRTMAX < val then none
          else read_signals_loop fuel r (acc ++ [val])
        else none

/-- `read_signals_array` (src/muinit.c:99-130): parse a comma-separated list
of signal numbers, extending the already-accumulated list `acc` in place.
`none` models printing a diagnostic and returning 1. -/
def read_signals_array (s : List Char) (acc : List Int) : Option (List Int) :=
  if s = [] then none
  else read_signals_loop (s.length + 1) s acc

/-- Truncation of a C `long` when assigned to the `int` field `conf.timeout`. -/
def toInt32 (v : Int) : Int := (v + 2 ^ 31) % 2 ^ 32 - 2 ^ 31

/-- The `-t` case of `main` (src/muinit.c:305-317):
`conf.timeout = strtol(argv[i], &arg, 10)` followed by the check
`if (!arg || arg[0] != '\0' || conf.timeout < 0)`.  `none` models the
configuration error (return 1). -/
def parse_timeout (s : List Char) : Option Int :=
  if s = [] then none
  else
    match strtol10 s with
    | none => none
    | some (v, rest) =>
      if rest = [] then
        if toInt32 v < 0 then none else some (toInt32 v)
      else none

/-- One whitespace-separated token of the children listing as consumed by
`fscanf(f, "%d", &pid)`: an integer, or a token that `%d` cannot match. -/
inductive Tok where
  | num (pid : Int)
  | bad
deriving DecidableEq

/-- The `/proc/<pid>/task/<pid>/children` resource; `none` models `fopen`
failing. -/
abbrev Listing := Option (List Tok)

/-- The two conditions that make the supervisor `exit(1)` from inside a
broadcast or an escalation step: `enumOpenFailed` is the
"can't open `...'" path (src/muinit.c:144-147), `exhausted` is the
"not all children terminated in time, exiting" path (src/muinit.c:236-239). -/
inductive Fatal where
  | enumOpenFailed
  | exhausted
deriving DecidableEq

/-- Both fatal paths call `exit(1)`. -/
def Fatal.exitCode : Fatal → Nat := fun _ => 1

/-- The pids actually passed to `kill` by the `fscanf` loop
(src/muinit.c:151-165): integers are read until EOF or until a malformed
token (which stops the loop early, after a diagnostic); only positive pids
are signalled. -/
def kills_from : List Tok → List Int
  | [] => []
  | Tok.num pid :: rest => if 0 < pid then pid :: kills_from rest else kills_from rest
  | Tok.bad :: _ => []

/-- One broadcast: the signal sent and the pids it was delivered to. -/
abbrev Broadcast := Int × List Int

/-- `send_signal_to_children` (src/muinit.c:140-170): `exit(1)` when the
children listing cannot be opened; otherwise deliver `sig` to every positive
pid read before EOF or before the first malformed token. -/
def send_signal_to_children (listing : Listing) (sig : Int) : Except Fatal Broadcast :=
  match listing with
  | none => .error .enumOpenFailed
  | some toks => .ok (sig, kills_from toks)

/-- The fields of the global `conf` that drive escalation. -/
structure Conf where
  termination_signals : List Int
  timeout : Int
deriving DecidableEq

/-- Mutable supervisor state: the escalation stage (`conf.termination_stage`),
the pending one-shot alarm in seconds (`0` meaning none, as for `alarm(0)`),
and the aggregate exit status accumulator `rc` of `main`. -/
structure St where
  stage : Nat
  alarm : Int
  rc : Nat
deriving DecidableEq

/-- `terminate_children` (src/muinit.c:235-244): once the configured steps are
exhausted, `exit(1)` with a diagnostic; otherwise arm `alarm(conf.timeout)`,
broadcast the signal of the current stage, and increment the stage. -/
def terminate_children (conf : Conf) (listing : Listing) (st : St) :
    Except Fatal (St × Broadcast) :=
  if conf.termination_signals.length ≤ st.stage then .error .exhausted
  else
    match send_signal_to_children listing (conf.termination_signals.getD st.stage 0) with
    | .error e => .error e
    | .ok b => .ok ({ st with stage := st.stage + 1, alarm := conf.timeout }, b)

/-- `signal_handler` (src/muinit.c:172-187): SIGALRM advances the escalation,
SIGTERM cancels the alarm and restarts it from stage 0, and any other
delivered signal is forwarded verbatim to the current descendants. -/
def signal_handler (conf : Conf) (listing : Listing) (st : St) (sig : Int) :
    Except Fatal (St × Broadcast) :=
  if sig = SIGALRM then terminate_children conf listing st
  else if sig = SIGTERM then
    terminate_children conf listing { st with alarm := 0, stage := 0 }
  else
    match send_signal_to_children listing sig with
    | .error e => .error e
    | .ok b => .ok (st, b)

/-- Status with which `wait` reports a reaped child. -/
inductive ChildStatus where
  | exited (code : Nat)
  | signaled (sig : Nat)
deriving DecidableEq

/-- The per-child code computed at src/muinit.c:427-432:
`128 + WTERMSIG(stat)` for signal deaths, `WEXITSTATUS(stat)` otherwise. -/
def child_rc : ChildStatus → Nat
  | .signaled s => 128 + s
  | .exited c => c

/-- One observable event of the supervision loop: `wait` reaps a child, a
registered signal interrupts `wait` (running `signal_handler`, after which
`wait` reports `EINTR`), or `wait` fails with an errno other than
`EINTR`/`ECHILD`.  The event list of a run is the sequence observed before
`wait` finally reports `ECHILD`. -/
inductive Event where
  | childExit (status : ChildStatus)
  | sig (s : Int)
  | waitOtherError
deriving DecidableEq

/-- One iteration of the `while (1)` loop of `main` (src/muinit.c:411-441),
returning the updated state and the broadcasts performed in this iteration. -/
def loop_step (conf : Conf) (listing : Listing) (st : St) :
    Event → Except Fatal (St × List Broadcast)
  | .sig s =>
    match signal_handler conf listing st s with
    | .error e => .error e
    | .ok (st2, b) => .ok (st2, [b])
  | .childExit status =>
    let st2 : St := { st with rc := if st.rc = 0 then child_rc status else st.rc }
    if st2.stage = 0 then
      match terminate_children conf listing st2 with
      | .error e => .error e
      | .ok (st3, b) => .ok (st3, [b])
    else .ok (st2, [])
  | .waitOtherError =>
    let st2 : St := { st with rc := 1 }
    if st2.stage = 0 then
      match terminate_children conf listing st2 with
      | .error e => .error e
      | .ok (st3, b) => .ok (st3, [b])
    else .ok (st2, [])

/-- Outcome of a whole run of the supervision loop. -/
inductive RunResult where
  | fatal (f : Fatal)
  | done (rc : Nat)
deriving DecidableEq

/-- Process exit status of a loop outcome: fatal paths `exit(1)`, the normal
path returns the aggregate `rc` from `main`. -/
def RunResult.exitCode : RunResult → Nat
  | .fatal _ => 1
  | .done rc => rc

/-- The supervision loop over a finite event sequence, collecting every
broadcast performed; the end of the list models `wait` returning `ECHILD`
(src/muinit.c:416-418), whereupon `main` breaks and returns `rc`. -/
def run_loop (conf : Conf) (listing : Listing) :
    St → List Event → List Broadcast × RunResult
  | st, [] => ([], .done st.rc)
  | st, e :: rest =>
    match loop_step conf listing st e with
    | .error f => ([], .fatal f)
    | .ok (st2, bs) =>
      let p := run_loop conf listing st2 rest
      (bs ++ p.1, p.2)

/-- The check `tmp[0] == '-' && tmp[1] == '-' && tmp[2] == '-' && tmp[3] == 0`
at src/muinit.c:218: the argument is exactly `---`. -/
def isDelim (a : List Char) : Bool :=
  match a with
  | ['-', '-', '-'] => true
  | _ => false

/-- `spawn_children` (src/muinit.c:212-233), recast over the argument list:
the accumulator `cur` is the run between `child_argv` and the cursor.  Every
non-empty run before a `---` is spawned, as is a non-empty final run; the
result lists the spawned argument vectors in order. -/
def spawn_children_runs : List (List Char) → List (List Char) → List (List (List Char))
  | [], cur => if cur = [] then [] else [cur]
  | a :: rest, cur =>
    if isDelim a then
      if cur = [] then spawn_children_runs rest []
      else cur :: spawn_children_runs rest []
    else spawn_children_runs rest (cur ++ [a])

/-- `spawn_children`'s return value (the spawn count) together with the
argument vectors it spawned. -/
def spawn_children (argv : List (List Char)) : Nat × List (List (List Char)) :=
  ((spawn_children_runs argv []).length, spawn_children_runs argv [])

/-- Splitting on `---` as the spec words it: the run before the first
delimiter, and one run after each delimiter. -/
def delim_split : List (List Char) → List (List Char) × List (List (List Char))
  | [] => ([], [])
  | a :: rest =>
    let s := delim_split rest
    if isDelim a then ([], s.1 :: s.2)
    else (a :: s.1, s.2)

/-- All delimiter-separated runs of the argument vector, in order (possibly
empty runs included). -/
def delim_runs (argv : List (List Char)) : List (List (List Char)) :=
  (delim_split argv).1 :: (delim_split argv).2

/-- Result of `main`'s option-parsing loop. -/
structure ParseResult where
  kSignals : List Int
  sSignals : List Int
  timeout : Int
  childArgs : List (List Char)
deriving DecidableEq

/-- Outcome of option parsing: `err` models printing a diagnostic and
returning 1, `help` models `-h` (print usage, return 0). -/
inductive ParseOut where
  | ok (r : ParseResult)
  | err
  | help
deriving DecidableEq

/-- The option-parsing loop of `main` (src/muinit.c:271-332) over the
arguments after the program name.  `ks` and `ss` accumulate the `-k` and `-s`
lists across occurrences (the C code keeps extending the same arrays); `t` is
the current timeout, initially 2.  A lone `---` ends option parsing and the
remaining arguments become the child command lines. -/
def parse_args : List (List Char) → List Int → List Int → Int → ParseOut
  | [], ks, ss, t => .ok ⟨ks, ss, t, []⟩
  | arg :: rest, ks, ss, t =>
    match arg with
    | ['-', c] =>
      if c = 'h' then .help
      else if c = 'k' then
        match rest with
        | [] => .err
        | v :: rest2 =>
          if v = [] then .err
          else
            match read_signals_array v ks with
            | none => .err
            | some ks2 => parse_args rest2 ks2 ss t
      else if c = 's' then
        match rest with
        | [] => .err
        | v :: rest2 =>
          if v = [] then .err
          else
            match read_signals_array v ss with
            | none => .err
            | some ss2 => parse_args rest2 ks ss2 t
      else if c = 't' then
        match rest with
        | [] => .err
        | v :: rest2 =>
          if v = [] then .err
          else
            match parse_timeout v with
            | none => .err
            | some t2 => parse_args rest2 ks ss t2
      else .err
    | ['-', '-', '-'] => .ok ⟨ks, ss, t, rest⟩
    | _ => .err

/-- Exit-relevant outcome of a whole `muinit` invocation. -/
inductive MainResult where
  | usage
  | configError
  | run (bcasts : List Broadcast) (r : RunResult)
deriving DecidableEq

/-- Process exit status of a `muinit` invocation. -/
def MainResult.exitCode : MainResult → Nat
  | .usage => 0
  | .configError => 1
  | .run _ r => r.exitCode

/-- `main` (src/muinit.c:246-446): parse options, fall back to the default
`SIGTERM,SIGKILL` escalation sequence when `-k` was never given, test-open
the children listing (its absence is fatal, src/muinit.c:393-398), spawn the
`---`-separated commands (zero spawns is fatal, src/muinit.c:401-404), then
run the supervision loop over the given event sequence.  Forward-signal
registration, the subreaper setup and the procfs path construction do not
affect the modelled state and are omitted. -/
def muinit_main (args : List (List Char)) (listing : Listing) (events : List Event) :
    MainResult :=
  match parse_args args [] [] 2 with
  | .err => .configError
  | .help => .usage
  | .ok r =>
    let ks := if r.kSignals = [] then [SIGTERM, SIGKILL] else r.kSignals
    match listing with
    | none => .configError
    | some _ =>
      if (spawn_children r.childArgs).1 = 0 then .configError
      else
        let conf : Conf := { termination_signals := ks, timeout := r.timeout }
        let p := run_loop conf listing { stage := 0, alarm := 0, rc := 0 } events
        .run p.1 p.2

/-- The first non-zero per-child code in order of observation, 0 if none
(the `if (!rc) rc = child_rc` accumulation at src/muinit.c:434-436). -/
def aggregate_rc : List ChildStatus → Nat
  | [] => 0
  | s :: rest => if child_rc s = 0 then aggregate_rc rest else child_rc s

/-! ## Theorems -/

/-- C1: `terminate_children` (the termination-controller advance operation):
once the stage has reached the number of configured termination signals it
reports "not all children terminated in time" and exits with status 1;
otherwise it broadcasts the signal configured for the current stage to every
pid currently enumerated, arms the one-shot alarm for the configured per-step
timeout (whose expiry delivers SIGALRM), and increments the stage by exactly
one. -/
theorem terminate_children_advance (conf : Conf) (toks : List Tok) (st : St) :
    (conf.termination_signals.length ≤ st.stage →
      terminate_children conf (some toks) st = .error .exhausted ∧
      Fatal.exitCode .exhausted = 1) ∧
    (st.stage < conf.termination_signals.length →
      terminate_children conf (some toks) st =
        .ok ({ stage := st.stage + 1, alarm := conf.timeout, rc := st.rc },
          (conf.termination_signals.getD st.stage 0, kills_from toks))) := by
  constructor
  · intro h
    exact ⟨by simp [terminate_children, h], rfl⟩
  · intro h
    simp [terminate_children, Nat.not_le.2 h, send_signal_to_children]

/-- Witness for C1 at a concrete configuration and state. -/
theorem terminate_children_advance_witness :
    (terminate_children ⟨[15, 9], 2⟩ (some [Tok.num 100]) ⟨2, 0, 0⟩ =
        .error .exhausted ∧
      Fatal.exitCode .exhausted = 1) ∧
    terminate_children ⟨[15, 9], 2⟩ (some [Tok.num 100]) ⟨0, 0, 0⟩ =
      .ok (⟨1, 2, 0⟩, (15, [100])) :=
  ⟨(terminate_children_advance ⟨[15, 9], 2⟩ [Tok.num 100] ⟨2, 0, 0⟩).1 (by decide),
   (terminate_children_advance ⟨[15, 9], 2⟩ [Tok.num 100] ⟨0, 0, 0⟩).2 (by decide)⟩

/-- C3: a child reaped while the stage is 0 triggers exactly one advance (one
escalation broadcast, stage moves to 1); a child reaped while escalation is
already in progress triggers no further advance (no broadcast, stage and
alarm unchanged — only the aggregate `rc` may be recorded). -/
theorem first_exit_triggers_single_advance (conf : Conf) (toks : List Tok)
    (st : St) (status : ChildStatus) :
    (st.stage = 0 → 0 < conf.termination_signals.length →
      loop_step conf (some toks) st (.childExit status) =
        .ok ({ stage := 1, alarm := conf.timeout,
               rc := if st.rc = 0 then child_rc status else st.rc },
          [(conf.termination_signals.getD 0 0, kills_from toks)])) ∧
    (0 < st.stage →
      loop_step conf (some toks) st (.childExit status) =
        .ok ({ stage := st.stage, alarm := st.alarm,
               rc := if st.rc = 0 then child_rc status else st.rc }, [])) := by
  constructor
  · intro h0 hN
    simp [loop_step, h0, terminate_children, Nat.not_le.2 hN,
      send_signal_to_children]
  · intro h
    simp [loop_step, Nat.pos_iff_ne_zero.1 h]

/-- Witness for C3: first exit at stage 0 advances once; an exit at stage 1
does not. -/
theorem first_exit_triggers_single_advance_witness :
    loop_step ⟨[15, 9], 2⟩ (some [Tok.num 100]) ⟨0, 0, 0⟩
        (.childExit (.exited 3)) = .ok (⟨1, 2, 3⟩, [(15, [100])]) ∧
    loop_step ⟨[15, 9], 2⟩ (some [Tok.num 100]) ⟨1, 2, 3⟩
        (.childExit (.exited 0)) = .ok (⟨1, 2, 3⟩, []) :=
  ⟨(first_exit_triggers_single_advance ⟨[15, 9], 2⟩ [Tok.num 100] ⟨0, 0, 0⟩
      (.exited 3)).1 rfl (by decide),
   (first_exit_triggers_single_advance ⟨[15, 9], 2⟩ [Tok.num 100] ⟨1, 2, 3⟩
      (.exited 0)).2 (by decide)⟩

/-- C4: receiving SIGTERM at any stage cancels the pending alarm, resets the
stage to 0 and immediately advances: the first configured signal is
re-broadcast to the current descendants, the alarm is re-armed for the
configured timeout, and the stage ends at 1 — independently of the previous
stage and pending alarm. -/
theorem sigterm_restarts_escalation (conf : Conf) (toks : List Tok) (st : St)
    (hN : 0 < conf.termination_signals.length) :
    signal_handler conf (some toks) st SIGTERM =
      .ok ({ stage := 1, alarm := conf.timeout, rc := st.rc },
        (conf.termination_signals.getD 0 0, kills_from toks)) := by
  simp [signal_handler, SIGTERM, SIGALRM, terminate_children, Nat.not_le.2 hN,
    send_signal_to_children]

/-- Witness for C4 at stage 2 with a stale pending alarm. -/
theorem sigterm_restarts_escalation_witness :
    signal_handler ⟨[15, 9], 7⟩ (some [Tok.num 100, Tok.num 200]) ⟨2, 3, 0⟩
        SIGTERM = .ok (⟨1, 7, 0⟩, (15, [100, 200])) :=
  sigterm_restarts_escalation ⟨[15, 9], 7⟩ [Tok.num 100, Tok.num 200] ⟨2, 3, 0⟩
    (by decide)

/-- C5: handling a forwarded signal (neither SIGALRM, the internal escalation
tick, nor SIGTERM, the restart signal) broadcasts exactly that signal number
to the currently enumerated descendants and leaves the whole supervisor state
— stage, pending alarm, and `rc` — unchanged. -/
theorem forward_signal_frame (conf : Conf) (toks : List Tok) (st : St)
    (s : Int) (h1 : s ≠ SIGALRM) (h2 : s ≠ SIGTERM) :
    signal_handler conf (some toks) st s = .ok (st, (s, kills_from toks)) := by
  simp [signal_handler, h1, h2, send_signal_to_children]

/-- Witness for C5: forwarding SIGINT changes nothing but signals everyone. -/
theorem forward_signal_frame_witness :
    signal_handler ⟨[15, 9], 2⟩ (some [Tok.num 100, Tok.num 200]) ⟨1, 2, 5⟩
        SIGINT = .ok (⟨1, 2, 5⟩, (SIGINT, [100, 200])) :=
  forward_signal_frame ⟨[15, 9], 2⟩ [Tok.num 100, Tok.num 200] ⟨1, 2, 5⟩
    SIGINT (by decide) (by decide)

/-- C7 counterexample: a listing that yields malformed data is NOT
process-fatal — `send_signal_to_children` prints a diagnostic, stops the
`fscanf` loop and returns normally (src/muinit.c:153-159 `break`s instead of
exiting), here with nobody signalled. -/
theorem malformed_listing_not_fatal :
    send_signal_to_children (some [Tok.bad]) SIGTERM = .ok (SIGTERM, []) := by
  decide

/-- Helper: the `fscanf` loop ignores everything after the first malformed
token. -/
theorem kills_from_stops_at_bad (toks rest : List Tok) :
    kills_from (toks ++ Tok.bad :: rest) = kills_from (toks ++ [Tok.bad]) := by
  induction toks with
  | nil => rfl
  | cons t ts ih => cases t <;> simp [kills_from, ih]

/-- C7 (amended): the broadcast is process-fatal (exit 1) exactly when the
descendant listing cannot be opened; a listing that yields malformed data is
handled without exiting — enumeration stops at the first malformed token
(pids read before it are still signalled) — and an empty listing is valid
and signals nobody. -/
theorem child_enumeration_failure_modes (s : Int) (toks rest : List Tok) :
    (send_signal_to_children none s = .error .enumOpenFailed ∧
      Fatal.exitCode .enumOpenFailed = 1) ∧
    (∃ b : Broadcast, send_signal_to_children (some toks) s = .ok b) ∧
    send_signal_to_children (some toks) s = .ok (s, kills_from toks) ∧
    kills_from (toks ++ Tok.bad :: rest) = kills_from (toks ++ [Tok.bad]) ∧
    send_signal_to_children (some []) s = .ok (s, []) :=
  ⟨⟨rfl, rfl⟩, ⟨(s, kills_from toks), rfl⟩, rfl,
    kills_from_stops_at_bad toks rest, rfl⟩

/-- C9 counterexample: a `-t` argument of 0 is accepted — the whole
invocation parses, spawns and supervises normally (the check at
src/muinit.c:313 only rejects negative values). -/
theorem timeout_zero_accepted :
    muinit_main [['-', 't'], ['0'], ['-', '-', '-'], ['s', 'l', 'e', 'e', 'p']]
        (some []) [] = .run [] (.done 0) := by
  decide

/-- C9 (amended): every timeout accepted by the `-t` parser is a
non-negative integer — 0 included (it is not rejected); the default used by
`main` when `-t` is absent is 2. -/
theorem timeout_nonneg_accepted (s : List Char) (v : Int)
    (h : parse_timeout s = some v) :
    0 ≤ v ∧ parse_timeout ['0'] = some 0 ∧
      parse_args [] [] [] 2 = .ok ⟨[], [], 2, []⟩ := by
  refine ⟨?_, by decide, rfl⟩
  by_cases hs : s = []
  · simp [parse_timeout, hs] at h
  · rcases he : strtol10 s with _ | ⟨w, rest⟩
    · simp [parse_timeout, hs, he] at h
    · by_cases hr : rest = []
      · by_cases hv : toInt32 w < 0
        · simp [parse_timeout, hs, he, hr, hv] at h
        · simp [parse_timeout, hs, he, hr, hv] at h
          omega
      · simp [parse_timeout, hs, he, hr] at h

/-- Witness for C9 (amended) at `-t 3`. -/
theorem timeout_nonneg_accepted_witness :
    0 ≤ (3 : Int) ∧ parse_timeout ['0'] = some 0 ∧
      parse_args [] [] [] 2 = .ok ⟨[], [], 2, []⟩ :=
  timeout_nonneg_accepted ['3'] 3 (by decide)

/-- Helper: the signal-list loop only appends — running it with an already
accumulated prefix yields that prefix followed by whatever it would produce
from scratch. -/
theorem read_signals_loop_append (fuel : Nat) :
    ∀ buf acc, read_signals_loop fuel buf acc =
      (read_signals_loop fuel buf []).map (fun l => acc ++ l) := by
  induction fuel with
  | zero => intro buf acc; cases buf <;> simp [read_signals_loop]
  | succ n ih =>
    intro buf acc
    cases buf with
    | nil => simp [read_signals_loop]
    | cons c cs =>
      simp only [read_signals_loop]
      cases hst : strtol10 (c :: cs) with
      | none => simp
      | some p =>
        obtain ⟨val, next⟩ := p
        cases next with
        | nil =>
          by_cases hv : val < 0 ∨ SIGRTMAX < val <;> simp [hv]
        | cons c2 r =>
          by_cases hc : c2 = ','
          · subst hc
            by_cases hv : val < 0 ∨ SIGRTMAX < val
            · simp [hv]
            · simp only [if_pos rfl, if_neg hv]
              rw [ih r (acc ++ [val]), ih r ([] ++ [val])]
              cases read_signals_loop n r [] <;> simp
          · simp [hc]

/-- Helper: `read_signals_array` extends the caller's accumulated list. -/
theorem read_signals_array_append (v : List Char) (l acc : List Int)
    (h : read_signals_array v [] = some l) :
    read_signals_array v acc = some (acc ++ l) := by
  by_cases hv : v = []
  · simp [read_signals_array, hv] at h
  · unfold read_signals_array at h ⊢
    rw [if_neg hv] at h ⊢
    rw [read_signals_loop_append, h]
    rfl

/-- C10: a repeated `-k` (likewise `-s`) option appends its parsed signal
numbers to the list accumulated by earlier occurrences: `read_signals_array`
extends the existing array, so the escalation step sequence (resp. forward
set) seen by the rest of option parsing is the concatenation, in
command-line order, of all the lists given. -/
theorem repeated_signal_options_append (v1 v2 : List Char) (l1 l2 acc : List Int)
    (rest : List (List Char)) (ks0 ss0 : List Int) (t : Int)
    (h1 : read_signals_array v1 [] = some l1)
    (h2 : read_signals_array v2 [] = some l2) :
    read_signals_array v2 acc = some (acc ++ l2) ∧
    parse_args (['-', 'k'] :: v1 :: ['-', 'k'] :: v2 :: rest) ks0 ss0 t =
      parse_args rest (ks0 ++ (l1 ++ l2)) ss0 t ∧
    parse_args (['-', 's'] :: v1 :: ['-', 's'] :: v2 :: rest) ks0 ss0 t =
      parse_args rest ks0 (ss0 ++ (l1 ++ l2)) t := by
  have hv1 : v1 ≠ [] := by
    intro hv; rw [hv] at h1; simp [read_signals_array] at h1
  have hv2 : v2 ≠ [] := by
    intro hv; rw [hv] at h2; simp [read_signals_array] at h2
  refine ⟨read_signals_array_append v2 l2 acc h2, ?_, ?_⟩
  · simp [parse_args, hv1, hv2, read_signals_array_append v1 l1 ks0 h1,
      read_signals_array_append v2 l2 (ks0 ++ l1) h2, List.append_assoc]
  · simp [parse_args, hv1, hv2, read_signals_array_append v1 l1 ss0 h1,
      read_signals_array_append v2 l2 (ss0 ++ l1) h2, List.append_assoc]

/-- Witness for C10: `-k 15` followed by `-k 9,2` accumulates `[15, 9, 2]`. -/
theorem repeated_signal_options_append_witness :
    read_signals_array ['9', ',', '2'] [15] = some [15, 9, 2] ∧
    parse_args [['-', 'k'], ['1', '5'], ['-', 'k'], ['9', ',', '2']] [] [] 2 =
      parse_args [] [15, 9, 2] [] 2 ∧
    parse_args [['-', 's'], ['1', '5'], ['-', 's'], ['9', ',', '2']] [] [] 2 =
      parse_args [] [] [15, 9, 2] 2 := by
  have h := repeated_signal_options_append ['1', '5'] ['9', ',', '2'] [15] [9, 2]
    [15] [] [] [] 2 (by decide) (by decide)
  simpa using h

/-- Helper: unfolding one successful loop iteration. -/
theorem run_loop_cons_ok {conf : Conf} {listing : Listing} {st st2 : St}
    {e : Event} {bs : List Broadcast} (rest : List Event)
    (h : loop_step conf listing st e = .ok (st2, bs)) :
    run_loop conf listing st (e :: rest) =
      (bs ++ (run_loop conf listing st2 rest).1,
        (run_loop conf listing st2 rest).2) := by
  simp only [run_loop, h]

/-- Helper: unfolding one fatal loop iteration. -/
theorem run_loop_cons_err {conf : Conf} {listing : Listing} {st : St}
    {e : Event} {f : Fatal} (rest : List Event)
    (h : loop_step conf listing st e = .error f) :
    run_loop conf listing st (e :: rest) = ([], .fatal f) := by
  simp only [run_loop, h]

/-- Helper: from any state whose stage is `n` short of the number of
configured steps, `n + 1` escalation ticks broadcast the remaining configured
signals in order and then exit through the "not all children terminated in
time" path. -/
theorem run_loop_alarms (conf : Conf) (toks : List Tok) :
    ∀ (n : Nat) (st : St), st.stage + n = conf.termination_signals.length →
      run_loop conf (some toks) st (List.replicate (n + 1) (Event.sig SIGALRM)) =
        ((conf.termination_signals.map (fun s => (s, kills_from toks))).drop
            st.stage,
          .fatal .exhausted) := by
  intro n
  induction n with
  | zero =>
    intro st h
    have hge : conf.termination_signals.length ≤ st.stage := by omega
    have hge2 : (conf.termination_signals.map
        (fun s => (s, kills_from toks))).length ≤ st.stage := by simpa using hge
    simp [run_loop, loop_step, signal_handler, SIGALRM, terminate_children, hge,
      List.drop_eq_nil_of_le hge2]
  | succ m ih =>
    intro st h
    have hlt : st.stage < conf.termination_signals.length := by omega
    have hstep : signal_handler conf (some toks) st SIGALRM =
        .ok ({ st with stage := st.stage + 1, alarm := conf.timeout },
          (conf.termination_signals.getD st.stage 0, kills_from toks)) := by
      simp [signal_handler, SIGALRM, terminate_children, Nat.not_le.2 hlt,
        send_signal_to_children]
    have hstep2 : loop_step conf (some toks) st (.sig SIGALRM) =
        .ok ({ st with stage := st.stage + 1, alarm := conf.timeout },
          [(conf.termination_signals.getD st.stage 0, kills_from toks)]) := by
      simp [loop_step, hstep]
    have hlt2 : st.stage <
        (conf.termination_signals.map (fun s => (s, kills_from toks))).length := by
      simpa using hlt
    rw [List.replicate_succ, run_loop_cons_ok _ hstep2,
      ih { st with stage := st.stage + 1, alarm := conf.timeout }
        (by show st.stage + 1 + m = conf.termination_signals.length; omega)]
    dsimp only
    rw [List.getD_eq_getElem _ _ hlt, List.singleton_append]
    conv_rhs => rw [List.drop_eq_getElem_cons hlt2]
    rw [List.getElem_map]

/-- C2: once escalation is triggered (here by the first child exit) and no
further child ever terminates, each configured timeout expiry delivers an
escalation tick: the run performs exactly N broadcasts — one per configured
signal, in configured order, to the current descendants — and the tick after
the Nth broadcast exits with status 1 through the "not all children
terminated in time" diagnostic. -/
theorem escalation_exhausts_after_n_steps (conf : Conf) (toks : List Tok)
    (status : ChildStatus) (hN : 0 < conf.termination_signals.length) :
    run_loop conf (some toks) ⟨0, 0, 0⟩
        (Event.childExit status ::
          List.replicate conf.termination_signals.length (Event.sig SIGALRM)) =
      (conf.termination_signals.map (fun s => (s, kills_from toks)),
        .fatal .exhausted) ∧
    RunResult.exitCode (.fatal .exhausted) = 1 := by
  refine ⟨?_, rfl⟩
  obtain ⟨m, hm⟩ : ∃ m, conf.termination_signals.length = m + 1 :=
    ⟨conf.termination_signals.length - 1, by omega⟩
  have hstep : loop_step conf (some toks) ⟨0, 0, 0⟩ (.childExit status) =
      .ok (⟨1, conf.timeout, child_rc status⟩,
        [(conf.termination_signals.getD 0 0, kills_from toks)]) := by
    simp [loop_step, terminate_children, Nat.not_le.2 hN, send_signal_to_children]
  rw [run_loop_cons_ok _ hstep, hm,
    run_loop_alarms conf toks m ⟨1, conf.timeout, child_rc status⟩
      (by show 1 + m = conf.termination_signals.length; omega)]
  rw [List.getD_eq_getElem _ _ hN, List.singleton_append]
  conv_rhs =>
    rw [(List.drop_zero (conf.termination_signals.map
        (fun s => (s, kills_from toks)))).symm,
      List.drop_eq_getElem_cons (by simpa using hN)]
  rw [List.getElem_map]

/-- Witness for C2 with the default two-step configuration: broadcasts of
SIGTERM then SIGKILL, then exit 1. -/
theorem escalation_exhausts_after_n_steps_witness :
    run_loop ⟨[15, 9], 2⟩ (some [Tok.num 100]) ⟨0, 0, 0⟩
        (Event.childExit (.exited 0) ::
          List.replicate ([15, 9] : List Int).length (Event.sig SIGALRM)) =
      ([(15, [100]), (9, [100])], .fatal .exhausted) ∧
    RunResult.exitCode (.fatal .exhausted) = 1 := by
  have h := escalation_exhausts_after_n_steps ⟨[15, 9], 2⟩ [Tok.num 100]
    (.exited 0) (by decide)
  simpa using h

/-- Helper: the aggregate is 0 exactly when every reported child code is 0. -/
theorem aggregate_rc_eq_zero (statuses : List ChildStatus) :
    aggregate_rc statuses = 0 ↔ ∀ s ∈ statuses, child_rc s = 0 := by
  induction statuses with
  | nil => simp [aggregate_rc]
  | cons s rest ih => by_cases h : child_rc s = 0 <;> simp [aggregate_rc, h, ih]

/-- Helper: once escalation is in progress, further child exits only fold
their codes into `rc`; the run ends with the first non-zero code recorded. -/
theorem run_loop_stage_pos (conf : Conf) (listing : Listing) :
    ∀ (statuses : List ChildStatus) (st : St), 0 < st.stage →
      run_loop conf listing st (statuses.map Event.childExit) =
        ([], .done (if st.rc = 0 then aggregate_rc statuses else st.rc)) := by
  intro statuses
  induction statuses with
  | nil =>
    intro st h
    by_cases hrc : st.rc = 0 <;> simp [run_loop, aggregate_rc, hrc]
  | cons s rest ih =>
    intro st h
    have hsp : st.stage ≠ 0 := Nat.pos_iff_ne_zero.1 h
    have hstep : loop_step conf listing st (.childExit s) =
        .ok ({ st with rc := if st.rc = 0 then child_rc s else st.rc }, []) := by
      simp [loop_step, hsp]
    rw [List.map_cons, run_loop_cons_ok _ hstep,
      ih { st with rc := if st.rc = 0 then child_rc s else st.rc } h]
    by_cases hrc : st.rc = 0 <;> by_cases hcs : child_rc s = 0 <;>
      simp [aggregate_rc, hrc, hcs]

/-- C6: over a run in which children are reaped and no internal error occurs,
the aggregate exit status is the first non-zero per-child code (`128 + signal`
for signal deaths, the exit code otherwise) and is 0 exactly when every child
reported 0; and whenever escalation has exhausted its steps, the next tick
ends the whole run with exit status 1 regardless of the recorded aggregate. -/
theorem aggregate_exit_status (conf : Conf) (toks : List Tok)
    (statuses : List ChildStatus) (hN : 0 < conf.termination_signals.length) :
    (run_loop conf (some toks) ⟨0, 0, 0⟩ (statuses.map Event.childExit)).2 =
      .done (aggregate_rc statuses) ∧
    RunResult.exitCode (.done (aggregate_rc statuses)) = aggregate_rc statuses ∧
    (aggregate_rc statuses = 0 ↔ ∀ s ∈ statuses, child_rc s = 0) ∧
    (∀ (st : St) (events : List Event),
      conf.termination_signals.length ≤ st.stage →
      run_loop conf (some toks) st (Event.sig SIGALRM :: events) =
        ([], .fatal .exhausted) ∧
      RunResult.exitCode (.fatal .exhausted) = 1) := by
  refine ⟨?_, rfl, aggregate_rc_eq_zero statuses, ?_⟩
  · cases statuses with
    | nil => simp [run_loop, aggregate_rc]
    | cons s rest =>
      have hstep : loop_step conf (some toks) ⟨0, 0, 0⟩ (.childExit s) =
          .ok (⟨1, conf.timeout, child_rc s⟩,
            [(conf.termination_signals.getD 0 0, kills_from toks)]) := by
        simp [loop_step, terminate_children, Nat.not_le.2 hN,
          send_signal_to_children]
      rw [List.map_cons, run_loop_cons_ok _ hstep,
        run_loop_stage_pos conf (some toks) rest ⟨1, conf.timeout, child_rc s⟩
          Nat.one_pos]
      by_cases hcs : child_rc s = 0 <;> simp [aggregate_rc, hcs]
  · intro st events hge
    exact ⟨by simp [run_loop, loop_step, signal_handler, SIGALRM,
      terminate_children, hge], rfl⟩

/-- Witness for C6: children exiting 0 then 3 yield aggregate 3; exhausted
escalation exits 1 even though the recorded aggregate was 0. -/
theorem aggregate_exit_status_witness :
    (run_loop ⟨[15, 9], 2⟩ (some [Tok.num 100]) ⟨0, 0, 0⟩
        ([ChildStatus.exited 0, ChildStatus.exited 3].map Event.childExit)).2 =
      .done 3 ∧
    run_loop ⟨[15, 9], 2⟩ (some [Tok.num 100]) ⟨2, 2, 0⟩
        [Event.sig SIGALRM] = ([], .fatal .exhausted) := by
  have h := aggregate_exit_status ⟨[15, 9], 2⟩ [Tok.num 100]
    [ChildStatus.exited 0, ChildStatus.exited 3] (by decide)
  exact ⟨by simpa using h.1, (h.2.2.2 ⟨2, 2, 0⟩ [] (by decide)).1⟩

/-- Helper: `spawn_children`, with any run already accumulated, spawns
exactly the non-empty delimiter-separated runs. -/
theorem spawn_children_runs_eq (argv : List (List Char)) :
    ∀ cur, spawn_children_runs argv cur =
      ((cur ++ (delim_split argv).1) :: (delim_split argv).2).filter
        (fun x => x ≠ []) := by
  induction argv with
  | nil => intro cur; by_cases h : cur = [] <;> simp [spawn_children_runs, delim_split, h]
  | cons a rest ih =>
    intro cur
    by_cases hd : isDelim a
    · by_cases hc : cur = [] <;>
        simp [spawn_children_runs, delim_split, hd, hc, ih []]
    · simp [spawn_children_runs, delim_split, hd, ih (cur ++ [a]),
        List.append_assoc]

/-- C8: `spawn_children` splits the trailing argument vector on the exact
token `---`: every non-empty run between delimiters (or before the first /
after the last) is spawned as one subprocess with that run as its argv, empty
runs spawn nothing, and the returned count is the number of spawned
subprocesses; a parse whose command part spawns zero subprocesses makes the
whole invocation exit 1 as a configuration error. -/
theorem spawn_children_splits (argv args : List (List Char)) (r : ParseResult)
    (toks : List Tok) (events : List Event)
    (hp : parse_args args [] [] 2 = .ok r)
    (hz : (spawn_children r.childArgs).1 = 0) :
    (spawn_children argv).2 = (delim_runs argv).filter (fun x => x ≠ []) ∧
    (spawn_children argv).1 =
      ((delim_runs argv).filter (fun x => x ≠ [])).length ∧
    muinit_main args (some toks) events = .configError ∧
    MainResult.exitCode .configError = 1 := by
  refine ⟨?_, ?_, ?_, rfl⟩
  · simpa [delim_runs] using spawn_children_runs_eq argv []
  · simpa [delim_runs, spawn_children] using
      congrArg List.length (spawn_children_runs_eq argv [])
  · simp [muinit_main, hp, hz]

/-- Witness for C8: `a --- --- b c` spawns `[a]` and `[b, c]` (the empty
middle run spawns nothing), and an invocation whose command part is empty
(`muinit ---`) is a configuration error with exit status 1. -/
theorem spawn_children_splits_witness :
    (spawn_children [['a'], ['-', '-', '-'], ['-', '-', '-'], ['b'], ['c']]).2 =
      (delim_runs [['a'], ['-', '-', '-'], ['-', '-', '-'], ['b'], ['c']]).filter
        (fun x => x ≠ []) ∧
    (spawn_children [['a'], ['-', '-', '-'], ['-', '-', '-'], ['b'], ['c']]).1 =
      ((delim_runs [['a'], ['-', '-', '-'], ['-', '-', '-'], ['b'], ['c']]).filter
        (fun x => x ≠ [])).length ∧
    muinit_main [['-', '-', '-']] (some [Tok.num 5]) [] = .configError ∧
    MainResult.exitCode .configError = 1 :=
  spawn_children_splits [['a'], ['-', '-', '-'], ['-', '-', '-'], ['b'], ['c']]
    [['-', '-', '-']] ⟨[], [], 2, []⟩ [Tok.num 5] [] (by decide) (by decide)

end Muinit
